import Mathlib

/-!
# Verification of the All-Hazards-AI hybrid retrieval engine

Shallow embedding of the retrieval-engine core of the repository:

* `src/app/services/vector_index.py` — location codes, date variants,
  corpus decomposition, index builders, and the FAISS-backed search loops;
* `src/app/adapters/csv_adapter.py` — the direct date-match resolver;
* `src/app/services/shell_service.py` — the oversized-output spill logic;
* `src/app/services/catalog_generation/csv_cat.py` — header detection.

Machine integers are modelled as `Nat` (Python integers are unbounded);
fallible operations (`Path.samefile`, `raise RuntimeError`) are modelled
with `Except`/`Option` or an explicit error component; on-disk artifacts
are modelled as explicit state passed through the builders.
-/

/-! ## Location codes (vector_index.py, `_iter_pdf_items` / `search_pdf_chunks`)

`_iter_pdf_items` packs a PDF unit's page number and chunk index as
`loc = (pno << 16) | ck` (line 119); `search_pdf_chunks` unpacks with
`(loc >> 16, loc & 0xFFFF)` (line 305). -/

/-- `loc = (pno << 16) | ck` from `_iter_pdf_items`. -/
def packLoc (page chunk : Nat) : Nat := (page <<< 16) ||| chunk

/-- `(loc >> 16, loc & 0xFFFF)` from `search_pdf_chunks`. -/
def unpackLoc (loc : Nat) : Nat × Nat := (loc >>> 16, loc &&& 0xFFFF)

/-! ## Metadata rows and the semantic search loops

The persisted metadata table (`meta.parquet`) has columns `path` and `loc`;
row `i` corresponds to vector ordinal `i` of the FAISS index.  A FAISS
`search(qv, pool)` call returns an array of `pool` candidate ordinals in
similarity-descending order, padded with `-1` when fewer are available, and
every non-negative ordinal is a valid row index; we model the hit array as a
`List Int`.

`Path.samefile` performs file-identity comparison through the filesystem and
raises `OSError` when either path no longer exists; we model it as a
parameter `same : String → String → Except Unit Bool`, where `.error ()` is
the raised exception. -/

/-- One row of a `meta.parquet` metadata table: `{path, loc}`. -/
structure MetaRow where
  path : String
  loc : Nat
deriving DecidableEq, Repr

/-- The candidate-walking loop shared by `search_rows`, `search_pdf_chunks`
and `search_script_chunks` (vector_index.py lines 254–262, 299–307, 324–332):

```
for i in hits:
    if i < 0: break
    path_i = resolve(meta.at[i, "path"])
    if path_i.samefile(target):
        results.append(meta.at[i, "loc"])
        if len(results) >= k: break
return results
```

`acc` is the `results` list accumulated so far; an out-of-range ordinal
raises (pandas `.at` lookup failure), modelled as `.error ()`. -/
def searchScan (same : String → String → Except Unit Bool) (meta : List MetaRow)
    (target : String) (k : Nat) : List Int → List Nat → Except Unit (List Nat)
  | [], acc => .ok acc
  | i :: rest, acc =>
    if i < 0 then .ok acc
    else
      match meta.get? i.toNat with
      | none => .error ()
      | some row =>
        match same row.path target with
        | .error e => .error e
        | .ok true =>
          if k ≤ (acc ++ [row.loc]).length then .ok (acc ++ [row.loc])
          else searchScan same meta target k rest (acc ++ [row.loc])
        | .ok false => searchScan same meta target k rest acc

/-- `search_rows` / `search_pdf_chunks` / `search_script_chunks` result list
(the question augmentation and embedding feed the opaque embedder and only
determine `hits`, which we take as input). -/
def searchRows (same : String → String → Except Unit Bool) (meta : List MetaRow)
    (target : String) (k : Nat) (hits : List Int) : Except Unit (List Nat) :=
  searchScan same meta target k hits []

/-- A file-identity test for a healthy filesystem in which two path strings
denote the same file exactly when they are equal: every stat call succeeds. -/
def sameEq : String → String → Except Unit Bool := fun p t => .ok (p == t)

/-! ## File-identity failure (C4)

`search_rows` (lines 253–262), `search_pdf_chunks` and `search_script_chunks`
call `path_i.samefile(target)` with no `try`/`except` around it: when either
path no longer exists on disk the `OSError` raised by `samefile` propagates
and the whole search call fails.  The repository defines a string normalizer
`_norm` (line 61) but uses it only while building indexes; no search function
ever falls back to string comparison. -/

/-- `_norm(p) = Path(p).as_posix().lower()` (vector_index.py line 61);
`as_posix` is the identity on POSIX-style path strings, and `.lower()` maps
every character to lower case. -/
def norm (p : String) : String := ⟨p.data.map Char.toLower⟩

/-- Modelled from the spec: the file-identity comparison the spec describes
for §7 "File-identity resolution failure", which on an `OSError` falls back to
normalized-string path comparison instead of propagating.  No such fallback
exists in the source; this definition exists only to state what the claim
requires. -/
def sameWithStringFallback (same : String → String → Except Unit Bool)
    (p t : String) : Except Unit Bool :=
  match same p t with
  | .error _ => .ok (norm p == norm t)
  | .ok b => .ok b

/-- A file-identity test in which every stat call fails (every involved path
has been deleted from disk), as raised by `Path.samefile`. -/
def sameAllMissing : String → String → Except Unit Bool := fun _ _ => .error ()

/-! ## Multi-file search (`search_rows_multi`, vector_index.py lines 264–285)

```
out = {str(p): [] for p in csv_paths}
resolved = {str(p): (PROJECT_ROOT / p).resolve() for p in csv_paths}
for i in hits:
    if i < 0: break
    meta_path = (PROJECT_ROOT / meta.at[i, "path"]).resolve()
    for orig, abs_path in resolved.items():
        if meta_path.samefile(abs_path) and len(out[orig]) < k:
            out[orig].append(int(meta.at[i, "loc"]))
return out
```

The ordered dict `out` is modelled as an association list in the order of
`csv_paths` (whose entries we take as distinct, as dict keys are).  The
short-circuit `and` evaluates `samefile` first, so its exception propagates
even when a path already holds `k` results. -/

/-- The inner `for orig, abs_path in resolved.items()` pass over all requested
paths for one candidate row. -/
def multiStep (same : String → String → Except Unit Bool) (row : MetaRow)
    (k : Nat) : List (String × List Nat) → Except Unit (List (String × List Nat))
  | [] => .ok []
  | (p, acc) :: rest =>
    match same row.path p with
    | .error e => .error e
    | .ok b =>
      match multiStep same row k rest with
      | .error e => .error e
      | .ok rest' =>
        .ok ((p, if b ∧ acc.length < k then acc ++ [row.loc] else acc) :: rest')

/-- The outer `for i in hits` loop of `search_rows_multi`. -/
def multiScan (same : String → String → Except Unit Bool) (meta : List MetaRow)
    (k : Nat) : List Int → List (String × List Nat) → Except Unit (List (String × List Nat))
  | [], out => .ok out
  | i :: rest, out =>
    if i < 0 then .ok out
    else
      match meta.get? i.toNat with
      | none => .error ()
      | some row =>
        match multiStep same row k out with
        | .error e => .error e
        | .ok out' => multiScan same meta k rest out'

/-- `search_rows_multi(question, csv_paths, k)`: result mapping from each
requested path to its accumulated location codes. -/
def searchRowsMulti (same : String → String → Except Unit Bool) (meta : List MetaRow)
    (paths : List String) (k : Nat) (hits : List Int) :
    Except Unit (List (String × List Nat)) :=
  multiScan same meta k hits (paths.map (fun p => (p, [])))

/-- What `search_rows_multi` accumulates for one fixed requested path: scan
the whole pool, appending a candidate's location when it belongs to the path
and the path holds fewer than `k` results. -/
def multiSingle (same : String → String → Except Unit Bool) (meta : List MetaRow)
    (k : Nat) (p : String) : List Int → List Nat → Except Unit (List Nat)
  | [], acc => .ok acc
  | i :: rest, acc =>
    if i < 0 then .ok acc
    else
      match meta.get? i.toNat with
      | none => .error ()
      | some row =>
        match same row.path p with
        | .error e => .error e
        | .ok b =>
          multiSingle same meta k p rest (if b ∧ acc.length < k then acc ++ [row.loc] else acc)

/-- A file-identity test on a filesystem from which `gone.csv` has been
deleted: any stat involving it raises, all other paths exist and compare by
string equality. -/
def sameGoneMissing : String → String → Except Unit Bool := fun p t =>
  if p == "gone.csv" || t == "gone.csv" then .error () else .ok (p == t)

/-! ## Index builders (vector_index.py lines 123–183)

`build_csv_index` / `build_pdf_index` collect all decomposed units, raise
`RuntimeError` when none were found, and only after a successful embedding
write the vector-index file and the metadata file.  We model one persisted
store as `Option (List MetaRow)` (`none` = the artifact files do not exist)
and a builder as a function returning the store after the call together with
the raised error, if any: since in the source the `raise` precedes every
write, an erroring call leaves the store argument unchanged. -/

/-- One decomposed unit as yielded by `_iter_csv_items` / `_iter_pdf_items`:
`(text representation, normalized source path, location code)`. -/
structure Unit' where
  text : String
  path : String
  loc : Nat
deriving DecidableEq, Repr

/-- `build_csv_index` (lines 123–138): `(store after the call, raised error)`. -/
def build_csv_index (items : List Unit') (persisted : Option (List MetaRow)) :
    Option (List MetaRow) × Option String :=
  if items = [] then (persisted, some "No CSV rows found for embedding")
  else (some (items.map fun it => ⟨it.path, it.loc⟩), none)

/-- `build_pdf_index` (lines 140–155): `(store after the call, raised error)`. -/
def build_pdf_index (items : List Unit') (persisted : Option (List MetaRow)) :
    Option (List MetaRow) × Option String :=
  if items = [] then (persisted, some "No PDF chunks found for embedding")
  else (some (items.map fun it => ⟨it.path, it.loc⟩), none)

/-! ## Overflow spill (shell_service.py `run_shell`, vector_index.py
`build_script_output_index`)

`run_shell` captures the script's stdout; when its length exceeds
`MAX_OUTPUT_CHARS` it writes the text to a fresh side file, calls
`build_script_output_index` on it, and returns the sentinel
`"__INDEXED_OUTPUT__:" + path`; otherwise the stdout is returned inline.
`build_script_output_index` slices the file text into `chunk_size`-char
chunks starting at offsets `0, chunk_size, 2*chunk_size, …` and overwrites
the script store with one metadata row `(txt_path, offset)` per chunk —
unless there are no chunks, in which case it logs a warning and returns
before writing anything. -/

/-- The chunk start offsets `range(0, n, cs)` (for `cs > 0`). -/
def chunkStarts (n cs : Nat) : List Nat :=
  (List.range ((n + cs - 1) / cs)).map (fun i => i * cs)

/-- `build_script_output_index(txt_path)` (lines 157–183), reading a file of
content `raw` with `SCRIPT_CHUNK_SIZE = cs`: `(script store after the call,
raised error)`. -/
def build_script_output_index (txtPath : String) (raw : String) (cs : Nat)
    (persisted : Option (List MetaRow)) : Option (List MetaRow) × Option String :=
  let locs := chunkStarts raw.length cs
  if locs = [] then (persisted, none)
  else (some (locs.map fun i => ⟨txtPath, i⟩), none)

/-- The spill branch of `run_shell` (shell_service.py lines 66–85): given the
captured stdout, the threshold `MAX_OUTPUT_CHARS`, and the fresh side-file
path, return the string handed back to the caller and the script store after
the call. -/
def run_shell_output (output : String) (maxChars : Nat) (tmpPath : String)
    (cs : Nat) (persisted : Option (List MetaRow)) :
    String × (Option (List MetaRow) × Option String) :=
  if maxChars < output.length then
    ("__INDEXED_OUTPUT__:" ++ tmpPath, build_script_output_index tmpPath output cs persisted)
  else (output, (persisted, none))

/-! ## Tabular decomposition and header detection (C9)

`_iter_csv_items` (vector_index.py lines 96–106) reads every CSV with
`pd.read_csv(csv_path, dtype=str, skiprows=1)`: pandas first skips one line
unconditionally, then consumes the next line as the column header, and the
remaining lines become the data rows; the loop yields one unit per data row,
keyed by `str(row.iloc[0]).strip()` with the row ordinal as location code.

`_find_header_idx` (csv_cat.py lines 44–50) is the heuristic header finder of
the catalog generator:

```
for i, line in enumerate(fp):
    if "," in line: return i
return 0
```
-/

/-- Comma split of one raw line into cell values, char by char (`cur` holds
the current cell's characters in reverse). -/
def splitCellsAux : List Char → List Char → List String
  | [], cur => [⟨cur.reverse⟩]
  | c :: rest, cur =>
    if c == ',' then ⟨cur.reverse⟩ :: splitCellsAux rest []
    else splitCellsAux rest (c :: cur)

/-- A CSV file is its list of raw lines; `splitCells` is the comma split of
one line into cell values. -/
def splitCells (line : String) : List String := splitCellsAux line.data []

/-- Python `str.strip()` (whitespace modelled as the space character). -/
def pyStrip (s : String) : String :=
  ⟨((s.data.dropWhile (· == ' ')).reverse.dropWhile (· == ' ')).reverse⟩

/-- The `enumerate` loop of `_find_header_idx`, carrying the running index. -/
def findHeaderAux : List String → Nat → Nat
  | [], _ => 0
  | l :: rest, i => if l.data.contains ',' then i else findHeaderAux rest (i + 1)

/-- `_find_header_idx(path)`: first line index containing a comma, `0` when no
line does. -/
def find_header_idx (lines : List String) : Nat := findHeaderAux lines 0

/-- `_iter_csv_items` unit sequence for one file, over the file's rows (each
already split into cells): drop the skipped line and the header line, then
one `(key, row ordinal)` unit per remaining row. -/
def iter_csv_items (rows : List (List String)) : List (String × Nat) :=
  ((rows.drop 2).map (fun r => pyStrip (r.headD ""))).enum.map (fun p => (p.2, p.1))

/-! ## Direct-match resolver (csv_adapter.py)

`_direct_date_slice(date_token, df)` (lines 37–54) parses the token with
`pd.to_datetime(…, errors="raise")` (an unparseable token returns `None`),
parses the first column once with `errors="coerce"` (an unparseable cell
becomes `NaT`, which matches nothing), and returns the rows whose parsed date
equals the token's — or `None` when none match.  `format_csv_for_prompt`
(lines 57–91) tries this slice when the question carries a date token and
falls back to `search_rows`, and as a last resort to the first rows of the
file, when it is absent or empty.

The pandas datetime parser is external; it enters the model as a parameter
`pdate : String → Option Date` (`none` = unparseable, i.e. `NaT`). -/

/-- A calendar date `(year, month, day)`. -/
structure Date where
  year : Nat
  month : Nat
  day : Nat
deriving DecidableEq, Repr

/-- `_direct_date_slice`: the matching row indices of the table's first
column `col`, or `none`. -/
def direct_date_slice (pdate : String → Option Date) (dateToken : String)
    (col : List String) : Option (List Nat) :=
  match pdate dateToken with
  | none => none
  | some dt =>
    if (col.enum.filter (fun p => pdate p.2 == some dt)).map (fun p => p.1) = []
    then none
    else some ((col.enum.filter (fun p => pdate p.2 == some dt)).map (fun p => p.1))

/-- The row-selection logic of `format_csv_for_prompt` (lines 70–81): direct
date slice first (capped to `MAX_ROWS`), else semantic `search_rows` results,
else the first `min(MAX_ROWS, len(df))` rows.  `extract` models
`_extract_date_token` (the `\d{1,2}/\d{1,2}/\d{2,4}` regex search) and
`searchRes` the `search_rows` call's result. -/
def format_csv_rows (pdate : String → Option Date) (extract : String → Option String)
    (question : String) (col : List String) (searchRes : List Nat)
    (maxRows : Nat) : List Nat :=
  match extract question with
  | some token =>
    match direct_date_slice pdate token col with
    | some hit => hit.take maxRows
    | none => if searchRes = [] then List.range (min maxRows col.length) else searchRes
  | none => if searchRes = [] then List.range (min maxRows col.length) else searchRes

/-- Python `lstrip('0')`. -/
def stripLeadingZeros (s : String) : String := ⟨s.data.dropWhile (· == '0')⟩

/-- `bs` occurs as a contiguous run at the head of `as`. -/
def startsWithChars : List Char → List Char → Bool
  | _, [] => true
  | [], _ :: _ => false
  | a :: as, b :: bs => a == b && startsWithChars as bs

/-- `bs` occurs as a contiguous run somewhere in `as` (Python `in`). -/
def substrContains : List Char → List Char → Bool
  | as, bs =>
    match as with
    | [] => bs.isEmpty
    | _ :: tail => startsWithChars as bs || substrContains tail bs

/-- Modelled from the spec: the two-tier direct matcher of §4.5, whose second
tier — "a loose substring match of the raw token (with leading zeros
stripped) against the first column's raw string values" — exists in no source
function; this definition states what the claim requires of the resolver. -/
def direct_date_slice_two_tier (pdate : String → Option Date) (dateToken : String)
    (col : List String) : Option (List Nat) :=
  match direct_date_slice pdate dateToken col with
  | some hit => some hit
  | none =>
    let raw := stripLeadingZeros dateToken
    let hit := (col.enum.filter (fun p => substrContains p.2.data raw.data)).map (fun p => p.1)
    if hit = [] then none else some hit

/-- The pandas datetime parser restricted to the strings of the C5
counterexample: the clean token `"03/16/2023"` parses; the cell
`"3/16/2023 approx."` does not (`pd.to_datetime` rejects the trailing text,
so `errors="coerce"` yields `NaT`). -/
def pdateEx : String → Option Date := fun s =>
  if s = "03/16/2023" then some ⟨2023, 3, 16⟩ else none

/-! ## Date variants (`_date_variants`, vector_index.py lines 64–78)

```
dt = dp.parse(raw)
y, m, d = dt.year, dt.month, dt.day
suf = {1:'st',2:'nd',3:'rd'}.get(d if d<20 else d%10, 'th')
od  = f"{d}{suf}"
variants = [
    f"{m}/{d}/{y}", dt.strftime("%m/%d/%Y"), f"{m}/{d}/{str(y)[2:]}",
    dt.strftime("%Y-%m-%d"),
    f"{dt.strftime('%B')} {d} {y}", f"{dt.strftime('%b')} {d} {y}",
    f"{dt.strftime('%B')} {od} {y}", f"{dt.strftime('%b')} {od} {y}",
]
```

A spelling is modelled as the token sequence the dateutil tokenizer produces
from it — digit runs (most significant digit first) and alphabetic words —
together with the single separator every generated spelling uses (`"16th"`
tokenizes as the digit run `16` followed by the word `"th"`).

The re-parser `dp.parse` is the external dateutil parser; `parseDStr` below
models it on exactly these token shapes, under its default settings: the
month precedes the day in ambiguous numeric dates, a leading digit run of
more than two digits in a dashed spelling is an ISO year, an ordinal suffix
word after the day is skipped, a month name fixes the month, and — the
behavior at issue in C2 — a year field of at most two digits is completed to
a century by `_ymd.convertyear`, relative to the year `cur` at parse time. -/

/-- Decimal digit string of `n % 10^fuel`-ish; the fuel argument only bounds
the recursion and is in practice `n` itself (see `decDigits`). -/
def decDigitsAux : Nat → Nat → List Nat
  | _, 0 => []
  | 0, _ + 1 => []
  | f + 1, n + 1 => decDigitsAux f ((n + 1) / 10) ++ [(n + 1) % 10]

/-- `str(n)` as a digit list, most significant digit first (`[]` for `0`,
which never occurs in the generated fields). -/
def decDigits (n : Nat) : List Nat := decDigitsAux n n

/-- Numeric value of a digit run, most significant digit first. -/
def numValAux : List Nat → Nat
  | [] => 0
  | d :: rest => d + 10 * numValAux rest

/-- The number the dateutil tokenizer reads from a digit run. -/
def numVal (ds : List Nat) : Nat := numValAux ds.reverse

/-- `%02d`: the zero-padded two-digit strftime field (for the 1–99 month and
day values that occur). -/
def pad2 (n : Nat) : List Nat := if n < 10 then 0 :: decDigits n else decDigits n

/-- `str(y)[2:]`: the source's two-digit-year field, dropping the first two
characters of the year's decimal spelling. -/
def strSlice2 (y : Nat) : List Nat := (decDigits y).drop 2

/-- `dt.strftime("%B")`. -/
def monthLong : Nat → String
  | 1 => "January"
  | 2 => "February"
  | 3 => "March"
  | 4 => "April"
  | 5 => "May"
  | 6 => "June"
  | 7 => "July"
  | 8 => "August"
  | 9 => "September"
  | 10 => "October"
  | 11 => "November"
  | 12 => "December"
  | _ => ""

/-- `dt.strftime("%b")`. -/
def monthAbbr : Nat → String
  | 1 => "Jan"
  | 2 => "Feb"
  | 3 => "Mar"
  | 4 => "Apr"
  | 5 => "May"
  | 6 => "Jun"
  | 7 => "Jul"
  | 8 => "Aug"
  | 9 => "Sep"
  | 10 => "Oct"
  | 11 => "Nov"
  | 12 => "Dec"
  | _ => ""

/-- `{1:'st',2:'nd',3:'rd'}.get(d if d<20 else d%10, 'th')`: the dict lookup
as chained comparisons of the key expression. -/
def ordSuffix (d : Nat) : String :=
  if (if d < 20 then d else d % 10) = 1 then "st"
  else if (if d < 20 then d else d % 10) = 2 then "nd"
  else if (if d < 20 then d else d % 10) = 3 then "rd"
  else "th"

/-- One token of a date spelling: a digit run or an alphabetic word. -/
inductive DTok where
  | num (ds : List Nat)
  | word (w : String)
deriving DecidableEq, Repr

/-- The separator joining a spelling's tokens. -/
inductive DSep where
  | slash
  | dash
  | space
deriving DecidableEq, Repr

/-- A date spelling as its separator and token sequence. -/
structure DStr where
  sep : DSep
  toks : List DTok
deriving DecidableEq, Repr

/-- `_date_variants`: the eight generated spellings, in source order. -/
def dateVariants (dt : Date) : List DStr :=
  [⟨.slash, [.num (decDigits dt.month), .num (decDigits dt.day), .num (decDigits dt.year)]⟩,
   ⟨.slash, [.num (pad2 dt.month), .num (pad2 dt.day), .num (decDigits dt.year)]⟩,
   ⟨.slash, [.num (decDigits dt.month), .num (decDigits dt.day), .num (strSlice2 dt.year)]⟩,
   ⟨.dash, [.num (decDigits dt.year), .num (pad2 dt.month), .num (pad2 dt.day)]⟩,
   ⟨.space, [.word (monthLong dt.month), .num (decDigits dt.day), .num (decDigits dt.year)]⟩,
   ⟨.space, [.word (monthAbbr dt.month), .num (decDigits dt.day), .num (decDigits dt.year)]⟩,
   ⟨.space, [.word (monthLong dt.month), .num (decDigits dt.day), .word (ordSuffix dt.day),
     .num (decDigits dt.year)]⟩,
   ⟨.space, [.word (monthAbbr dt.month), .num (decDigits dt.day), .word (ordSuffix dt.day),
     .num (decDigits dt.year)]⟩]

/-- dateutil `_ymd.convertyear`: complete a two-digit year to the century
that lands within fifty years of the parse-time year `cur` (the mutated
`year += century; if year >= cur+50: year -= 100; elif year < cur-50:
year += 100` written applicatively). -/
def convertYear (cur y : Nat) : Nat :=
  if cur + 50 ≤ y + cur / 100 * 100 then y + cur / 100 * 100 - 100
  else if y + cur / 100 * 100 < cur - 50 then y + cur / 100 * 100 + 100
  else y + cur / 100 * 100

/-- A parsed year field: the century counts as specified exactly when the
field has more than two digits. -/
def parseYearField (cur : Nat) (ds : List Nat) : Nat :=
  if 2 < ds.length then numVal ds else convertYear cur (numVal ds)

/-- The month named by a word, long or abbreviated. -/
def monthFromName (w : String) : Option Nat :=
  (List.range' 1 12).find? (fun m => monthLong m == w || monthAbbr m == w)

/-- The ordinal suffix words dateutil skips after a day number. -/
def isOrdWord (w : String) : Bool :=
  w == "st" || w == "nd" || w == "rd" || w == "th"

/-- The dateutil parse of the token shapes `_date_variants` generates (see
the section comment for the modelled settings). -/
def parseDStr (cur : Nat) (s : DStr) : Option Date :=
  match s.sep, s.toks with
  | .slash, [.num ms, .num ds, .num ys] =>
    some ⟨parseYearField cur ys, numVal ms, numVal ds⟩
  | .dash, [.num a, .num b, .num c] =>
    if 2 < a.length then some ⟨numVal a, numVal b, numVal c⟩
    else some ⟨parseYearField cur c, numVal a, numVal b⟩
  | .space, [.word w, .num ds, .num ys] =>
    (monthFromName w).map (fun m => ⟨parseYearField cur ys, m, numVal ds⟩)
  | .space, [.word w, .num ds, .word suf, .num ys] =>
    if isOrdWord suf then
      (monthFromName w).map (fun m => ⟨parseYearField cur ys, m, numVal ds⟩)
    else none
  | _, _ => none

/-! ## Theorems -/

theorem packLoc_eq (page chunk : Nat) (h : chunk < 2 ^ 16) :
    packLoc page chunk = 2 ^ 16 * page + chunk := by
  unfold packLoc
  rw [Nat.shiftLeft_eq, Nat.mul_comm page (2 ^ 16)]
  exact (Nat.mul_add_lt_is_or h page).symm

/-- C1. Location-code round trip: for every page in `[1, 65535]` and chunk in
`[0, 65535]`, unpacking the packed document location code returns the original
pair: `unpackLoc (packLoc page chunk) = (page, chunk)`. -/
theorem unpackLoc_packLoc (page chunk : Nat)
    (hp : 1 ≤ page ∧ page ≤ 65535) (hc : chunk ≤ 65535) :
    unpackLoc (packLoc page chunk) = (page, chunk) := by
  have hclt : chunk < 2 ^ 16 := by omega
  unfold unpackLoc
  rw [packLoc_eq page chunk hclt]
  have h1 : (2 ^ 16 * page + chunk) >>> 16 = page := by
    rw [Nat.shiftRight_eq_div_pow, Nat.mul_add_div (by norm_num)]
    omega
  have h2 : (2 ^ 16 * page + chunk) &&& 0xFFFF = chunk := by
    have : (0xFFFF : Nat) = 2 ^ 16 - 1 := by norm_num
    rw [this, Nat.and_pow_two_sub_one_eq_mod, Nat.mul_add_mod]
    exact Nat.mod_eq_of_lt hclt
  rw [h1, h2]

/-- Witness for C1 at page 3, chunk 5. -/
theorem unpackLoc_packLoc_witness :
    unpackLoc (packLoc 3 5) = (3, 5) :=
  unpackLoc_packLoc 3 5 (by decide) (by decide)

theorem searchScan_ok_length (same : String → String → Except Unit Bool)
    (meta : List MetaRow) (target : String) (k : Nat) :
    ∀ (hits : List Int) (acc res : List Nat), acc.length < k →
      searchScan same meta target k hits acc = .ok res → res.length ≤ k
  | [], acc, res, hacc, h => by
    simp only [searchScan, Except.ok.injEq] at h
    subst h; omega
  | i :: rest, acc, res, hacc, h => by
    simp only [searchScan] at h
    split at h
    · simp only [Except.ok.injEq] at h; subst h; omega
    · split at h
      · exact absurd h (by simp)
      · split at h
        · exact absurd h (by simp)
        · split at h
          · simp only [Except.ok.injEq] at h
            subst h
            simp only [List.length_append, List.length_cons, List.length_nil]
            omega
          · exact searchScan_ok_length same meta target k rest _ res
              (by simp only [List.length_append, List.length_cons, List.length_nil] at *; omega) h
        · exact searchScan_ok_length same meta target k rest acc res hacc h

theorem searchScan_ok_scoped (same : String → String → Except Unit Bool)
    (meta : List MetaRow) (target : String) (k : Nat) :
    ∀ (hits : List Int) (acc res : List Nat),
      (∀ l ∈ acc, ∃ row ∈ meta, row.loc = l ∧ same row.path target = .ok true) →
      searchScan same meta target k hits acc = .ok res →
      ∀ l ∈ res, ∃ row ∈ meta, row.loc = l ∧ same row.path target = .ok true
  | [], acc, res, hacc, h => by
    simp only [searchScan, Except.ok.injEq] at h
    subst h; exact hacc
  | i :: rest, acc, res, hacc, h => by
    simp only [searchScan] at h
    split at h
    · simp only [Except.ok.injEq] at h; subst h; exact hacc
    · split at h
      next => exact absurd h (by simp)
      next row hrow =>
        split at h
        next => exact absurd h (by simp)
        next hsame =>
          have hmem : row ∈ meta := List.get?_mem hrow
          have hacc' : ∀ l ∈ acc ++ [row.loc],
              ∃ r ∈ meta, r.loc = l ∧ same r.path target = .ok true := by
            intro l hl
            rcases List.mem_append.mp hl with hl | hl
            · exact hacc l hl
            · simp only [List.mem_singleton] at hl
              exact ⟨row, hmem, hl.symm, hsame⟩
          split at h
          · simp only [Except.ok.injEq] at h; subst h; exact hacc'
          · exact searchScan_ok_scoped same meta target k rest _ res hacc' h
        next => exact searchScan_ok_scoped same meta target k rest acc res hacc h

/-- C3 counterexample: a single-file search called with `k = 0` returns one
result, exceeding the requested cap, because the `len(results) >= k` check
runs only after an append.  Here the metadata has one row for the target
file and the candidate pool ranks it first. -/
theorem searchRows_cap_fails_at_k_zero :
    searchRows sameEq [⟨"data/a.csv", 7⟩] "data/a.csv" 0 [0]
      = .ok [7] ∧ ¬ ([7].length ≤ 0) :=
  ⟨rfl, by decide⟩

/-- C3 (amended): for every single-file semantic search with cap `k ≥ 1` that
returns normally, every returned location code belongs to a metadata row whose
path passes the file-identity comparison against the requested target, and the
number of returned results never exceeds `k`.  (As stated the claim fails for
`k = 0`, where one result can be returned.) -/
theorem searchRows_scoped (same : String → String → Except Unit Bool)
    (meta : List MetaRow) (target : String) (k : Nat) (hits : List Int)
    (res : List Nat) (hk : 1 ≤ k) (h : searchRows same meta target k hits = .ok res) :
    res.length ≤ k ∧
      ∀ l ∈ res, ∃ row ∈ meta, row.loc = l ∧ same row.path target = .ok true :=
  ⟨searchScan_ok_length same meta target k hits [] res (by simpa using hk) h,
   searchScan_ok_scoped same meta target k hits [] res (by simp) h⟩

/-- Witness for C3 (amended): two metadata rows, only the first belongs to the
target file; with `k = 1` and a pool ranking both, the result is `[7]`. -/
theorem searchRows_scoped_witness :
    (1 : Nat) ≤ 1 ∧
      searchRows sameEq
        [⟨"data/a.csv", 7⟩, ⟨"data/b.csv", 9⟩] "data/a.csv" 1 [1, 0] = .ok [7] ∧
      ([7].length ≤ 1 ∧
        ∀ l ∈ [7], ∃ row ∈ [MetaRow.mk "data/a.csv" 7, MetaRow.mk "data/b.csv" 9],
          row.loc = l ∧ sameEq row.path "data/a.csv" = .ok true) :=
  ⟨by decide, rfl,
    searchRows_scoped sameEq
      [⟨"data/a.csv", 7⟩, ⟨"data/b.csv", 9⟩] "data/a.csv" 1 [1, 0] [7]
      (by decide) rfl⟩

/-- C4 counterexample: with a metadata row whose path no longer exists on
disk, the search call fails outright (`.error`), whereas the claimed
normalized-string fallback would have returned the row.  So file-identity
resolution failure is fatal to the whole search, contrary to the claim. -/
theorem searchRows_samefile_failure_fatal :
    searchRows sameAllMissing [⟨"gone.csv", 5⟩] "gone.csv" 3 [0] = .error () ∧
    searchRows (sameWithStringFallback sameAllMissing)
      [⟨"gone.csv", 5⟩] "gone.csv" 3 [0] = .ok [5] :=
  ⟨rfl, rfl⟩

/-- C4 (amended): if the file-identity comparison raises for a scanned
candidate (the candidate's metadata path or the target no longer exists on
disk), the exception propagates and the whole single-file search call fails;
there is no fallback to normalized-string path comparison. -/
theorem searchRows_error_propagates (same : String → String → Except Unit Bool)
    (meta : List MetaRow) (target : String) (k : Nat) (i : Int) (rest : List Int)
    (row : MetaRow) (hi : ¬ i < 0) (hrow : meta.get? i.toNat = some row)
    (hsame : same row.path target = .error ()) :
    searchRows same meta target k (i :: rest) = .error () := by
  simp only [searchRows, searchScan, if_neg hi, hrow, hsame]

/-- Witness for C4 (amended) at one missing-path metadata row. -/
theorem searchRows_error_propagates_witness :
    ¬ (0 : Int) < 0 ∧
      [MetaRow.mk "gone.csv" 5].get? (Int.toNat 0) = some (MetaRow.mk "gone.csv" 5) ∧
      sameAllMissing "gone.csv" "gone.csv" = .error () ∧
      searchRows sameAllMissing [⟨"gone.csv", 5⟩] "gone.csv" 3 [0, 1] = .error () :=
  ⟨by decide, rfl, rfl,
    searchRows_error_propagates sameAllMissing [⟨"gone.csv", 5⟩] "gone.csv" 3 0 [1]
      ⟨"gone.csv", 5⟩ (by decide) rfl rfl⟩

theorem multiStep_ok_get (same : String → String → Except Unit Bool) (row : MetaRow)
    (k : Nat) : ∀ (out out' : List (String × List Nat)),
    multiStep same row k out = .ok out' →
    ∀ (j : Nat) (p : String) (acc : List Nat), out.get? j = some (p, acc) →
      ∃ b, same row.path p = .ok b ∧
        out'.get? j = some (p, if b ∧ acc.length < k then acc ++ [row.loc] else acc)
  | [], out', h, j, p, acc, hj => by simp at hj
  | (q, a) :: rest, out', h, j, p, acc, hj => by
    simp only [multiStep] at h
    split at h
    next => exact absurd h (by simp)
    next b hb =>
      split at h
      next => exact absurd h (by simp)
      next rest' hrest =>
        simp only [Except.ok.injEq] at h
        subst h
        match j with
        | 0 =>
          simp only [List.get?_cons_zero, Option.some.injEq, Prod.mk.injEq] at hj
          obtain ⟨hqp, haa⟩ := hj
          subst hqp; subst haa
          exact ⟨b, hb, rfl⟩
        | j + 1 =>
          simp only [List.get?_cons_succ] at hj ⊢
          exact multiStep_ok_get same row k rest rest' hrest j p acc hj

theorem multiStep_ok_length (same : String → String → Except Unit Bool) (row : MetaRow)
    (k : Nat) : ∀ (out out' : List (String × List Nat)),
    multiStep same row k out = .ok out' → out'.length = out.length
  | [], out', h => by
    simp only [multiStep, Except.ok.injEq] at h
    subst h; rfl
  | (q, a) :: rest, out', h => by
    simp only [multiStep] at h
    split at h
    next => exact absurd h (by simp)
    next b hb =>
      split at h
      next => exact absurd h (by simp)
      next rest' hrest =>
        simp only [Except.ok.injEq] at h
        subst h
        simp [multiStep_ok_length same row k rest rest' hrest]

theorem multiStep_saturated (same : String → String → Except Unit Bool) (row : MetaRow)
    (k : Nat) : ∀ (out out' : List (String × List Nat)),
    (∀ pa ∈ out, k ≤ pa.2.length) →
    multiStep same row k out = .ok out' → out' = out
  | [], out', hsat, h => by
    simp only [multiStep, Except.ok.injEq] at h
    exact h.symm
  | (q, a) :: rest, out', hsat, h => by
    simp only [multiStep] at h
    split at h
    next => exact absurd h (by simp)
    next b hb =>
      split at h
      next => exact absurd h (by simp)
      next rest' hrest =>
        simp only [Except.ok.injEq] at h
        subst h
        have hq : k ≤ a.length := hsat (q, a) (by simp)
        have : ¬ (b = true ∧ a.length < k) := by
          rintro ⟨-, hlt⟩; omega
        rw [if_neg this,
          multiStep_saturated same row k rest rest' (fun pa hpa => hsat pa (by simp [hpa])) hrest]

theorem multiSingle_ok_length (same : String → String → Except Unit Bool)
    (meta : List MetaRow) (k : Nat) (p : String) :
    ∀ (hits : List Int) (acc res : List Nat), acc.length ≤ k →
      multiSingle same meta k p hits acc = .ok res → res.length ≤ k
  | [], acc, res, hacc, h => by
    simp only [multiSingle, Except.ok.injEq] at h
    subst h; exact hacc
  | i :: rest, acc, res, hacc, h => by
    simp only [multiSingle] at h
    split at h
    · simp only [Except.ok.injEq] at h; subst h; exact hacc
    · split at h
      next => exact absurd h (by simp)
      next row hrow =>
        split at h
        next => exact absurd h (by simp)
        next b hb =>
          refine multiSingle_ok_length same meta k p rest _ res ?_ h
          split
          next hc => simp only [List.length_append, List.length_cons, List.length_nil]; omega
          next => exact hacc

theorem multiScan_ok_single (same : String → String → Except Unit Bool)
    (meta : List MetaRow) (k : Nat) :
    ∀ (hits : List Int) (out out' : List (String × List Nat)),
      multiScan same meta k hits out = .ok out' →
      ∀ (j : Nat) (p : String) (acc : List Nat), out.get? j = some (p, acc) →
        ∃ l, out'.get? j = some (p, l) ∧ multiSingle same meta k p hits acc = .ok l
  | [], out, out', h, j, p, acc, hj => by
    simp only [multiScan, Except.ok.injEq] at h
    subst h
    exact ⟨acc, hj, rfl⟩
  | i :: rest, out, out', h, j, p, acc, hj => by
    simp only [multiScan] at h
    split at h
    next hi =>
      simp only [Except.ok.injEq] at h
      subst h
      exact ⟨acc, hj, by simp only [multiSingle, if_pos hi]⟩
    next hi =>
      split at h
      next => exact absurd h (by simp)
      next row hrow =>
        split at h
        next => exact absurd h (by simp)
        next out₁ hstep =>
          obtain ⟨b, hb, hj₁⟩ := multiStep_ok_get same row k out out₁ hstep j p acc hj
          obtain ⟨l, hl, hsingle⟩ := multiScan_ok_single same meta k rest out₁ out' h j p _ hj₁
          refine ⟨l, hl, ?_⟩
          simp only [multiSingle, if_neg hi, hrow, hb]
          exact hsingle

theorem multiScan_saturated (same : String → String → Except Unit Bool)
    (meta : List MetaRow) (k : Nat) :
    ∀ (hits : List Int) (out out' : List (String × List Nat)),
      (∀ pa ∈ out, k ≤ pa.2.length) →
      multiScan same meta k hits out = .ok out' → out' = out
  | [], out, out', hsat, h => by
    simp only [multiScan, Except.ok.injEq] at h
    exact h.symm
  | i :: rest, out, out', hsat, h => by
    simp only [multiScan] at h
    split at h
    · simp only [Except.ok.injEq] at h; exact h.symm
    · split at h
      next => exact absurd h (by simp)
      next row hrow =>
        split at h
        next => exact absurd h (by simp)
        next out₁ hstep =>
          have hout₁ : out₁ = out := multiStep_saturated same row k out out₁ hsat hstep
          rw [hout₁] at h
          exact multiScan_saturated same meta k rest out out' hsat h

theorem multiScan_stops_equiv (same : String → String → Except Unit Bool)
    (meta : List MetaRow) (k : Nat) :
    ∀ (hits₁ hits₂ : List Int) (st out out₁ : List (String × List Nat)),
      multiScan same meta k (hits₁ ++ hits₂) st = .ok out →
      multiScan same meta k hits₁ st = .ok out₁ →
      (∀ pa ∈ out₁, k ≤ pa.2.length) → out = out₁
  | [], hits₂, st, out, out₁, h, h₁, hsat => by
    simp only [multiScan, Except.ok.injEq, List.nil_append] at h h₁
    subst h₁
    exact multiScan_saturated same meta k hits₂ st out hsat h
  | i :: rest, hits₂, st, out, out₁, h, h₁, hsat => by
    simp only [List.cons_append, multiScan] at h h₁
    by_cases hi : i < 0
    · rw [if_pos hi] at h h₁
      simp only [Except.ok.injEq] at h h₁
      exact h ▸ h₁
    · rw [if_neg hi] at h h₁
      rcases hrow : meta.get? i.toNat with _ | row
      · simp only [hrow] at h
        exact absurd h (by simp)
      · simp only [hrow] at h h₁
        rcases hstep : multiStep same row k st with e | out₂
        · simp only [hstep] at h
          exact absurd h (by simp)
        · simp only [hstep] at h h₁
          exact multiScan_stops_equiv same meta k rest hits₂ out₂ out out₁ h h₁ hsat

theorem multiScan_ok_length_eq (same : String → String → Except Unit Bool)
    (meta : List MetaRow) (k : Nat) :
    ∀ (hits : List Int) (out out' : List (String × List Nat)),
      multiScan same meta k hits out = .ok out' → out'.length = out.length
  | [], out, out', h => by
    simp only [multiScan, Except.ok.injEq] at h
    subst h; rfl
  | i :: rest, out, out', h => by
    simp only [multiScan] at h
    split at h
    · simp only [Except.ok.injEq] at h; subst h; rfl
    · split at h
      next => exact absurd h (by simp)
      next row hrow =>
        split at h
        next => exact absurd h (by simp)
        next out₁ hstep =>
          rw [multiScan_ok_length_eq same meta k rest out₁ out' h]
          exact multiStep_ok_length same row k out out₁ hstep

/-- C6 counterexample: `search_rows_multi` does not stop scanning once every
requested path has reached `k` results.  With one requested path, `k = 1`, and
a pool `[0, 1]` whose first candidate already saturates the path, the loop
still visits candidate `1`; that visit is observable, because its `samefile`
call raises (the candidate's file was deleted) and the whole call fails,
whereas stopping at saturation would have returned the accumulated results
(as the pool `[0]` shows). -/
theorem searchRowsMulti_no_early_stop :
    searchRowsMulti sameGoneMissing [⟨"data/a.csv", 1⟩, ⟨"gone.csv", 2⟩]
        ["data/a.csv"] 1 [0] = .ok [("data/a.csv", [1])] ∧
    (∀ pa ∈ ([("data/a.csv", [1])] : List (String × List Nat)), 1 ≤ pa.2.length) ∧
    searchRowsMulti sameGoneMissing [⟨"data/a.csv", 1⟩, ⟨"gone.csv", 2⟩]
        ["data/a.csv"] 1 [0, 1] = .error () :=
  ⟨rfl, by decide, rfl⟩

/-- C6 (amended): for `search_rows_multi` with cap `k` that returns normally:
each path's result list holds at most `k` location codes; each path
accumulates exactly as if it were scanned independently over the whole
candidate pool (so exhausting one path's candidates never stops another path
from accumulating); and although the loop keeps iterating after every path is
saturated, the extra iterations cannot change the result: any pool prefix
that already saturates every path determines the final result.  (As stated
the claim fails: scanning does not stop once every path has reached `k`; the
remaining candidates are still visited, observably so when one of them makes
`samefile` raise.) -/
theorem searchRowsMulti_fair (same : String → String → Except Unit Bool)
    (meta : List MetaRow) (paths : List String) (k : Nat) (hits : List Int)
    (out : List (String × List Nat))
    (h : searchRowsMulti same meta paths k hits = .ok out) :
    (∀ pa ∈ out, pa.2.length ≤ k) ∧
    (∀ (j : Nat) (p : String), paths.get? j = some p →
      ∃ l, out.get? j = some (p, l) ∧ multiSingle same meta k p hits [] = .ok l) ∧
    (∀ (hits₁ hits₂ : List Int) (out₁ : List (String × List Nat)),
      hits = hits₁ ++ hits₂ →
      searchRowsMulti same meta paths k hits₁ = .ok out₁ →
      (∀ pa ∈ out₁, k ≤ pa.2.length) → out = out₁) := by
  have hsingle : ∀ (j : Nat) (p : String), paths.get? j = some p →
      ∃ l, out.get? j = some (p, l) ∧ multiSingle same meta k p hits [] = .ok l := by
    intro j p hj
    refine multiScan_ok_single same meta k hits _ out h j p [] ?_
    rw [List.get?_map, hj]
    rfl
  refine ⟨?_, hsingle, ?_⟩
  · intro pa hpa
    obtain ⟨j, hj⟩ := List.mem_iff_get?.mp hpa
    have hlen : out.length = paths.length := by
      have := multiScan_ok_length_eq same meta k hits _ out h
      simpa using this
    have hjo : j < out.length := by
      by_contra hge
      rw [List.get?_eq_none.mpr (by omega)] at hj
      exact absurd hj (by simp)
    have hjlt : j < paths.length := hlen ▸ hjo
    obtain ⟨l, hl, hms⟩ := hsingle j (paths.get ⟨j, hjlt⟩) (List.get?_eq_get hjlt)
    rw [hj] at hl
    have hpal : pa = (paths.get ⟨j, hjlt⟩, l) := Option.some.inj hl
    rw [hpal]
    exact multiSingle_ok_length same meta k _ hits [] l (Nat.zero_le k) hms
  · intro hits₁ hits₂ out₁ hsplit h₁ hsat
    exact multiScan_stops_equiv same meta k hits₁ hits₂ _ out out₁ (hsplit ▸ h) h₁ hsat

/-- Witness for C6 (amended): paths A and B with `k = 1`; A's only candidate
is ranked first and A is exhausted there, yet B still accumulates from the
second candidate. -/
theorem searchRowsMulti_fair_witness :
    searchRowsMulti sameEq [⟨"data/a.csv", 1⟩, ⟨"data/b.csv", 2⟩]
        ["data/a.csv", "data/b.csv"] 1 [0, 1]
      = .ok [("data/a.csv", [1]), ("data/b.csv", [2])] ∧
    ((∀ pa ∈ ([("data/a.csv", [1]), ("data/b.csv", [2])] : List (String × List Nat)),
        pa.2.length ≤ 1) ∧
      (∀ (j : Nat) (p : String), ["data/a.csv", "data/b.csv"].get? j = some p →
        ∃ l, ([("data/a.csv", [1]), ("data/b.csv", [2])] : List (String × List Nat)).get? j
            = some (p, l) ∧
          multiSingle sameEq [⟨"data/a.csv", 1⟩, ⟨"data/b.csv", 2⟩] 1 p [0, 1] [] = .ok l) ∧
      (∀ (hits₁ hits₂ : List Int) (out₁ : List (String × List Nat)),
        ([0, 1] : List Int) = hits₁ ++ hits₂ →
        searchRowsMulti sameEq [⟨"data/a.csv", 1⟩, ⟨"data/b.csv", 2⟩]
            ["data/a.csv", "data/b.csv"] 1 hits₁ = .ok out₁ →
        (∀ pa ∈ out₁, 1 ≤ pa.2.length) →
        ([("data/a.csv", [1]), ("data/b.csv", [2])] : List (String × List Nat)) = out₁)) :=
  ⟨rfl, searchRowsMulti_fair sameEq [⟨"data/a.csv", 1⟩, ⟨"data/b.csv", 2⟩]
      ["data/a.csv", "data/b.csv"] 1 [0, 1] [("data/a.csv", [1]), ("data/b.csv", [2])] rfl⟩

/-- C8. Empty corpus at build time is fatal and atomic: with an empty unit
sequence, `build_csv_index` and `build_pdf_index` raise a `RuntimeError`
(surfaced to the caller) and the persisted store — whatever it was — is left
exactly as before: no partial index or metadata is written. -/
theorem build_index_empty_fatal_atomic (persisted : Option (List MetaRow)) :
    build_csv_index [] persisted = (persisted, some "No CSV rows found for embedding") ∧
    build_pdf_index [] persisted = (persisted, some "No PDF chunks found for embedding") :=
  ⟨rfl, rfl⟩

theorem chunkStarts_ne_nil (n cs : Nat) (hn : 0 < n) (hcs : 0 < cs) :
    chunkStarts n cs ≠ [] := by
  unfold chunkStarts
  have h1 : 1 ≤ (n + cs - 1) / cs := by
    rw [Nat.le_div_iff_mul_le hcs]
    omega
  intro hmap
  have := List.map_eq_nil.mp hmap
  rw [List.range_eq_nil] at this
  omega

/-- C7. Overflow trigger: when the captured stdout exceeds `MAX_OUTPUT_CHARS`,
`run_shell` spills it to a side file, indexes it through
`build_script_output_index` (every written metadata row points at the side
file), and returns the sentinel `"__INDEXED_OUTPUT__:" + path` instead of the
raw text; when it does not exceed the threshold, the raw stdout is returned
inline and the script store is untouched; and a subsequent
`search_script_chunks` against the spilled file returns only location codes
of metadata rows of that file. -/
theorem run_shell_overflow (output : String) (maxChars : Nat) (tmpPath : String)
    (cs : Nat) (persisted : Option (List MetaRow)) (hcs : 0 < cs)
    (hbig : maxChars < output.length) :
    run_shell_output output maxChars tmpPath cs persisted
      = ("__INDEXED_OUTPUT__:" ++ tmpPath,
         (some ((chunkStarts output.length cs).map fun i => ⟨tmpPath, i⟩), none)) ∧
    (∀ row ∈ (chunkStarts output.length cs).map fun i => (⟨tmpPath, i⟩ : MetaRow),
      row.path = tmpPath) ∧
    (∀ (out₂ : String) (maxChars₂ : Nat), out₂.length ≤ maxChars₂ →
      run_shell_output out₂ maxChars₂ tmpPath cs persisted = (out₂, (persisted, none))) ∧
    (∀ (same : String → String → Except Unit Bool) (k : Nat) (hits : List Int)
        (res : List Nat),
      searchRows same ((chunkStarts output.length cs).map fun i => ⟨tmpPath, i⟩)
          tmpPath k hits = .ok res →
      ∀ l ∈ res, ∃ row ∈ (chunkStarts output.length cs).map fun i => (⟨tmpPath, i⟩ : MetaRow),
        row.loc = l ∧ row.path = tmpPath) := by
  refine ⟨?_, ?_, ?_, ?_⟩
  · unfold run_shell_output build_script_output_index
    rw [if_pos hbig]
    have hne : chunkStarts output.length cs ≠ [] :=
      chunkStarts_ne_nil output.length cs (by omega) hcs
    simp only [ne_eq, List.map_eq_nil] at hne ⊢
    rw [if_neg hne]
  · intro row hrow
    obtain ⟨i, -, hi⟩ := List.mem_map.mp hrow
    rw [← hi]
  · intro out₂ maxChars₂ hsmall
    unfold run_shell_output
    rw [if_neg (by omega)]
  · intro same k hits res hsearch l hl
    obtain ⟨row, hrowmem, hrowloc, -⟩ :=
      searchScan_ok_scoped same _ tmpPath k hits [] res (by simp) hsearch l hl
    refine ⟨row, hrowmem, hrowloc, ?_⟩
    obtain ⟨i, -, hi⟩ := List.mem_map.mp hrowmem
    rw [← hi]

/-- Witness for C7: stdout `"abcde"` (5 chars) over threshold 3, chunk size 2:
the sentinel references the side file and the store holds rows at offsets
`0, 2, 4`, all pointing at the side file. -/
theorem run_shell_overflow_witness :
    0 < 2 ∧ 3 < ("abcde" : String).length ∧
    run_shell_output "abcde" 3 "user_data/outputs/o1.txt" 2 none
      = ("__INDEXED_OUTPUT__:user_data/outputs/o1.txt",
         (some [⟨"user_data/outputs/o1.txt", 0⟩, ⟨"user_data/outputs/o1.txt", 2⟩,
                ⟨"user_data/outputs/o1.txt", 4⟩], none)) :=
  ⟨by decide, by decide, by
    have h := (run_shell_overflow "abcde" 3 "user_data/outputs/o1.txt" 2 none
      (by decide) (by decide)).1
    simpa using h⟩

/-- C10. An empty spill input is non-fatal and non-destructive: invoked on a
file whose text is empty, `build_script_output_index` returns without raising
and without writing the script store, leaving whatever spill index was
persisted before unchanged — unlike `build_csv_index` / `build_pdf_index`,
for which an empty input raises. -/
theorem build_script_output_index_empty (txtPath : String) (cs : Nat)
    (persisted : Option (List MetaRow)) :
    build_script_output_index txtPath "" cs persisted = (persisted, none) ∧
    (build_csv_index [] persisted).2.isSome ∧ (build_pdf_index [] persisted).2.isSome := by
  refine ⟨?_, by simp [build_csv_index], by simp [build_pdf_index]⟩
  unfold build_script_output_index chunkStarts
  have hlen : ("" : String).length = 0 := rfl
  rw [hlen]
  have : (0 + cs - 1) / cs = 0 := by
    rcases Nat.eq_zero_or_pos cs with h | h
    · subst h; rfl
    · exact Nat.div_eq_of_lt (by omega)
  rw [this]
  rfl

theorem findHeaderAux_spec : ∀ (lines : List String) (i : Nat),
    (∃ l ∈ lines, l.data.contains ',' = true) →
    ∃ j l, findHeaderAux lines i = i + j ∧ lines.get? j = some l ∧
      l.data.contains ',' = true ∧
      ∀ j' < j, ∀ l', lines.get? j' = some l' → l'.data.contains ',' = false
  | [], i, hex => by simp at hex
  | l :: rest, i, hex => by
    by_cases hl : l.data.contains ',' = true
    · refine ⟨0, l, ?_, rfl, hl, by omega⟩
      unfold findHeaderAux
      rw [hl]
      simp
    · have hex' : ∃ l' ∈ rest, l'.data.contains ',' = true := by
        rcases hex with ⟨x, hx, hcx⟩
        rcases List.mem_cons.mp hx with hx | hx
        · exact absurd (hx ▸ hcx) hl
        · exact ⟨x, hx, hcx⟩
      obtain ⟨j, x, haux, hget, hcx, hbefore⟩ := findHeaderAux_spec rest (i + 1) hex'
      refine ⟨j + 1, x, ?_, by simpa using hget, hcx, ?_⟩
      · unfold findHeaderAux
        rw [if_neg hl]
        omega
      · intro j' hj' l' hget'
        match j' with
        | 0 =>
          simp only [List.get?_cons_zero, Option.some.injEq] at hget'
          subst hget'
          exact Bool.not_eq_true _ ▸ (by simpa using hl)
        | j' + 1 =>
          exact hbefore j' (by omega) l' (by simpa using hget')

/-- C9 counterexample: a tabular file with no metadata line — the header
`"a,b"` is its first line, followed by two data rows.  The claimed behavior
(skip a metadata header line only if present, then one unit per remaining
data row, with the header found as the first comma-bearing line, here line 0)
predicts 2 units; the decomposer skips the first line unconditionally, loses
the data row `"1,2"` to header duty, and yields 1 unit. -/
theorem iter_csv_items_loses_first_row :
    find_header_idx ["a,b", "1,2", "3,4"] = 0 ∧
    (["a,b", "1,2", "3,4"].drop (find_header_idx ["a,b", "1,2", "3,4"] + 1)).length = 2 ∧
    iter_csv_items (["a,b", "1,2", "3,4"].map splitCells) = [("3", 0)] ∧
    (iter_csv_items (["a,b", "1,2", "3,4"].map splitCells)).length ≠ 2 := by
  refine ⟨rfl, rfl, ?_, ?_⟩ <;> decide

/-- C9 (amended): the first-comma-line header heuristic lives in the catalog
generator's `_find_header_idx`: whenever some line contains the delimiter, it
returns the index of the first such line (and `0` otherwise); the index
builder's decomposer, by contrast, does not detect anything — it always skips
exactly one leading metadata line, the reader consumes the next line as the
header, and it yields one unit per remaining row, keyed by the row's first
cell. -/
theorem header_heuristic_and_unconditional_skip (lines : List String)
    (rows : List (List String)) (hex : ∃ l ∈ lines, l.data.contains ',' = true) :
    (∃ l, lines.get? (find_header_idx lines) = some l ∧ l.data.contains ',' = true ∧
      ∀ j' < find_header_idx lines, ∀ l', lines.get? j' = some l' →
        l'.data.contains ',' = false) ∧
    (iter_csv_items rows).length = rows.length - 2 ∧
    (∀ (i : Nat) (r : List String), rows.get? (i + 2) = some r →
      (iter_csv_items rows).get? i = some (pyStrip (r.headD ""), i)) := by
  refine ⟨?_, ?_, ?_⟩
  · obtain ⟨j, l, haux, hget, hc, hbefore⟩ := findHeaderAux_spec lines 0 hex
    have hj : find_header_idx lines = j := by
      unfold find_header_idx
      omega
    exact ⟨l, hj ▸ hget, hc, hj ▸ hbefore⟩
  · simp [iter_csv_items]
  · intro i r hget
    unfold iter_csv_items
    rw [List.get?_map, List.get?_enum, List.get?_map, List.get?_drop,
      Nat.add_comm 2 i, hget]
    rfl

/-- Witness for C9 (amended): a file whose first line is a comma-free
metadata line; the heuristic finds the header at line 1, and the decomposer
yields the single remaining data row. -/
theorem header_heuristic_witness :
    (∃ l ∈ ["meta", "a,b", "1,2"], l.data.contains ',' = true) ∧
    ((∃ l, ["meta", "a,b", "1,2"].get? (find_header_idx ["meta", "a,b", "1,2"]) = some l ∧
        l.data.contains ',' = true ∧
        ∀ j' < find_header_idx ["meta", "a,b", "1,2"], ∀ l',
          ["meta", "a,b", "1,2"].get? j' = some l' → l'.data.contains ',' = false) ∧
      (iter_csv_items (["meta", "a,b", "1,2"].map splitCells)).length
        = ["meta", "a,b", "1,2"].length - 2 ∧
      (∀ (i : Nat) (r : List String),
        (["meta", "a,b", "1,2"].map splitCells).get? (i + 2) = some r →
        (iter_csv_items (["meta", "a,b", "1,2"].map splitCells)).get? i
          = some (pyStrip (r.headD ""), i))) :=
  ⟨⟨"a,b", by decide, by decide⟩,
    header_heuristic_and_unconditional_skip ["meta", "a,b", "1,2"]
      (["meta", "a,b", "1,2"].map splitCells) ⟨"a,b", by decide, by decide⟩⟩

/-- C5 counterexample: the extracted token `"03/16/2023"` parses, but no cell
of the first column parses, so the exact tier yields nothing and
`_direct_date_slice` reports absent — although the claimed second tier
matches row 0 (`"3/16/2023"`, the token with leading zeros stripped, occurs
in the raw cell `"3/16/2023 approx."`).  The resolver therefore reports
absent without trying any loose substring tier, contrary to the claim. -/
theorem direct_date_slice_has_no_second_tier :
    direct_date_slice pdateEx "03/16/2023" ["3/16/2023 approx."] = none ∧
    direct_date_slice_two_tier pdateEx "03/16/2023" ["3/16/2023 approx."] = some [0] := by
  refine ⟨?_, ?_⟩ <;> decide

/-- C5 (amended): the Direct-Match Resolver has a single tier.  When the
exact parsed-date tier yields matching rows, the caller shows exactly those
rows (capped), each being a row whose first-column cell parses to the same
date as the token; when the exact tier yields nothing, the resolver reports
absent and the caller falls back to the semantic search results (or, if those
are empty, to the file's first rows).  No loose substring tier exists. -/
theorem direct_date_slice_single_tier (pdate : String → Option Date)
    (extract : String → Option String) (question token : String)
    (col : List String) (searchRes : List Nat) (maxRows : Nat)
    (htok : extract question = some token) :
    (∀ hit, direct_date_slice pdate token col = some hit →
      format_csv_rows pdate extract question col searchRes maxRows = hit.take maxRows ∧
      hit ≠ [] ∧
      ∀ i ∈ hit, ∃ cell, col.get? i = some cell ∧
        pdate cell = pdate token ∧ (pdate token).isSome) ∧
    (direct_date_slice pdate token col = none →
      format_csv_rows pdate extract question col searchRes maxRows
        = if searchRes = [] then List.range (min maxRows col.length) else searchRes) := by
  constructor
  · intro hit hslice
    refine ⟨by simp only [format_csv_rows, htok, hslice], ?_, ?_⟩
    · intro hnil
      unfold direct_date_slice at hslice
      split at hslice
      · exact absurd hslice (by simp)
      · split at hslice
        · exact absurd hslice (by simp)
        next hne =>
          simp only [Option.some.injEq] at hslice
          exact hne (hslice.trans hnil)
    · intro i hi
      unfold direct_date_slice at hslice
      split at hslice
      · exact absurd hslice (by simp)
      next dt hdt =>
        split at hslice
        · exact absurd hslice (by simp)
        · simp only [Option.some.injEq] at hslice
          rw [← hslice] at hi
          obtain ⟨p, hp, hpi⟩ := List.mem_map.mp hi
          have hpmem := List.mem_filter.mp hp
          have hget : col.get? p.1 = some p.2 := List.mem_enum_iff_get?.mp hpmem.1
          have hpd : pdate p.2 = some dt := by
            have := hpmem.2
            simpa using this
          exact ⟨p.2, hpi ▸ hget, by rw [hpd, hdt], by rw [hdt]; rfl⟩
  · intro hslice
    simp only [format_csv_rows, htok, hslice]

/-- Witness for C5 (amended): question `"what happened on 03/16/2023"` over a
single-row column whose cell is exactly the token; the direct tier returns
row 0 and the caller shows it. -/
theorem direct_date_slice_single_tier_witness :
    (fun q => if q = "what happened on 03/16/2023" then some "03/16/2023" else none)
        "what happened on 03/16/2023" = some "03/16/2023" ∧
    direct_date_slice pdateEx "03/16/2023" ["03/16/2023"] = some [0] ∧
    format_csv_rows pdateEx
        (fun q => if q = "what happened on 03/16/2023" then some "03/16/2023" else none)
        "what happened on 03/16/2023" ["03/16/2023"] [] 10 = [0] ∧
    (∀ i ∈ [0], ∃ cell, ["03/16/2023"].get? i = some cell ∧
      pdateEx cell = pdateEx "03/16/2023" ∧ (pdateEx "03/16/2023").isSome) := by
  refine ⟨by decide, by decide, ?_, ?_⟩
  · have h := (direct_date_slice_single_tier pdateEx
      (fun q => if q = "what happened on 03/16/2023" then some "03/16/2023" else none)
      "what happened on 03/16/2023" "03/16/2023" ["03/16/2023"] [] 10
      (by decide)).1 [0] (by decide)
    simpa using h.1
  · exact (direct_date_slice_single_tier pdateEx
      (fun q => if q = "what happened on 03/16/2023" then some "03/16/2023" else none)
      "what happened on 03/16/2023" "03/16/2023" ["03/16/2023"] [] 10
      (by decide)).1 [0] (by decide) |>.2.2

/-- C2 counterexample: at parse-time year 2026, the token `"03/16/1960"`
parses to March 16, 1960, and its generated two-digit-year variant
`"3/16/60"` is among the spellings `_date_variants` emits for that date —
but re-parsing that variant yields March 16, **2060**: dateutil completes
the bare `60` to the century within fifty years of the parse date.  So not
every generated variant re-parses to the source's calendar date. -/
theorem dateVariants_not_closed :
    parseDStr 2026 ⟨.slash, [.num [0, 3], .num [1, 6], .num [1, 9, 6, 0]]⟩
      = some ⟨1960, 3, 16⟩ ∧
    (⟨.slash, [.num [3], .num [1, 6], .num [6, 0]]⟩ : DStr)
      ∈ dateVariants ⟨1960, 3, 16⟩ ∧
    parseDStr 2026 ⟨.slash, [.num [3], .num [1, 6], .num [6, 0]]⟩
      = some ⟨2060, 3, 16⟩ := by
  refine ⟨?_, ?_, ?_⟩ <;> decide

theorem decDigitsAux_eq : ∀ (f n : Nat), n ≤ f →
    decDigitsAux f n = (Nat.digits 10 n).reverse
  | _, 0, _ => by simp [decDigitsAux]
  | 0, n + 1, h => by omega
  | f + 1, n + 1, h => by
    show decDigitsAux f ((n + 1) / 10) ++ [(n + 1) % 10] = (Nat.digits 10 (n + 1)).reverse
    rw [decDigitsAux_eq f ((n + 1) / 10) (by omega),
      Nat.digits_def' (by norm_num : (1 : ℕ) < 10) (Nat.succ_pos n)]
    simp

theorem decDigits_eq (n : Nat) : decDigits n = (Nat.digits 10 n).reverse :=
  decDigitsAux_eq n n le_rfl

theorem numValAux_eq (l : List Nat) : numValAux l = Nat.ofDigits 10 l := by
  induction l with
  | nil => rfl
  | cons d rest ih => simp [numValAux, Nat.ofDigits_cons, ih]

theorem numVal_decDigits (n : Nat) : numVal (decDigits n) = n := by
  unfold numVal
  rw [decDigits_eq, List.reverse_reverse, numValAux_eq, Nat.ofDigits_digits]

theorem numVal_cons_zero (ds : List Nat) : numVal (0 :: ds) = numVal ds := by
  unfold numVal
  rw [List.reverse_cons, numValAux_eq, numValAux_eq, Nat.ofDigits_append]
  simp [Nat.ofDigits]

theorem numVal_pad2 (n : Nat) : numVal (pad2 n) = n := by
  unfold pad2
  split_ifs with h
  · rw [numVal_cons_zero, numVal_decDigits]
  · exact numVal_decDigits n

theorem digits_of_four_digit (y : Nat) (h1 : 1000 ≤ y) (h2 : y ≤ 9999) :
    Nat.digits 10 y = [y % 10, y / 10 % 10, y / 100 % 10, y / 1000] := by
  have h10 : (1 : ℕ) < 10 := by norm_num
  rw [Nat.digits_def' h10 (by omega),
    Nat.digits_def' h10 (show 0 < y / 10 by omega),
    Nat.digits_def' h10 (show 0 < y / 10 / 10 by omega),
    Nat.digits_def' h10 (show 0 < y / 10 / 10 / 10 by omega),
    show y / 10 / 10 / 10 / 10 = 0 by omega]
  simp only [Nat.digits_zero]
  rw [show y / 10 / 10 / 10 % 10 = y / 1000 by omega,
    show y / 10 / 10 = y / 100 by omega]

theorem decDigits_of_four_digit (y : Nat) (h1 : 1000 ≤ y) (h2 : y ≤ 9999) :
    decDigits y = [y / 1000, y / 100 % 10, y / 10 % 10, y % 10] := by
  rw [decDigits_eq, digits_of_four_digit y h1 h2]
  rfl

theorem strSlice2_of_four_digit (y : Nat) (h1 : 1000 ≤ y) (h2 : y ≤ 9999) :
    strSlice2 y = [y / 10 % 10, y % 10] := by
  unfold strSlice2
  rw [decDigits_of_four_digit y h1 h2]
  rfl

theorem numVal_pair (a b : Nat) : numVal [a, b] = 10 * a + b := by
  show b + 10 * (a + 10 * 0) = 10 * a + b
  ring

theorem parseYearField_four_digit (cur y : Nat) (h1 : 1000 ≤ y) (h2 : y ≤ 9999) :
    parseYearField cur (decDigits y) = y := by
  unfold parseYearField
  have hl : (decDigits y).length = 4 := by
    rw [decDigits_of_four_digit y h1 h2]
    rfl
  rw [hl, if_pos (by norm_num), numVal_decDigits]

theorem convertYear_window (cur y : Nat) (hcur : 1000 ≤ cur)
    (hw1 : cur ≤ y + 50) (hw2 : y < cur + 50) :
    convertYear cur (y % 100) = y := by
  unfold convertYear
  split_ifs <;> omega

theorem parseYearField_slice (cur y : Nat) (h1 : 1000 ≤ y) (h2 : y ≤ 9999)
    (hcur : 1000 ≤ cur) (hw1 : cur ≤ y + 50) (hw2 : y < cur + 50) :
    parseYearField cur (strSlice2 y) = y := by
  unfold parseYearField
  rw [strSlice2_of_four_digit y h1 h2]
  rw [if_neg (by norm_num), numVal_pair,
    show 10 * (y / 10 % 10) + y % 10 = y % 100 by omega]
  exact convertYear_window cur y hcur hw1 hw2

theorem monthFromName_long (m : Nat) (h1 : 1 ≤ m) (h2 : m ≤ 12) :
    monthFromName (monthLong m) = some m := by
  interval_cases m <;> rfl

theorem monthFromName_abbr (m : Nat) (h1 : 1 ≤ m) (h2 : m ≤ 12) :
    monthFromName (monthAbbr m) = some m := by
  interval_cases m <;> rfl

theorem isOrdWord_ordSuffix (d : Nat) : isOrdWord (ordSuffix d) = true := by
  unfold ordSuffix isOrdWord
  split_ifs <;> rfl

/-- C2 (amended): date variant closure holds on the two-digit-year window.
For every calendar date with a four-digit year, valid month and day, whose
year lies within the fifty-year window dateutil resolves two-digit years
into — `cur - 50 ≤ year < cur + 50`, where `cur` is the (four-digit) year at
parse time — every spelling `_date_variants` generates re-parses to the same
calendar date.  (As stated the claim fails: the `f"{m}/{d}/{str(y)[2:]}"`
variant of a date outside that window re-parses to a different year, as the
counterexample at 1960 shows.) -/
theorem dateVariants_closed_in_window (cur : Nat) (dt : Date)
    (hm : 1 ≤ dt.month ∧ dt.month ≤ 12) (hd : 1 ≤ dt.day ∧ dt.day ≤ 31)
    (hy : 1000 ≤ dt.year ∧ dt.year ≤ 9999) (hcur : 1000 ≤ cur)
    (hwin : cur ≤ dt.year + 50 ∧ dt.year < cur + 50) :
    ∀ v ∈ dateVariants dt, parseDStr cur v = some dt := by
  obtain ⟨y, m, d⟩ := dt
  simp only at hm hd hy hwin
  intro v hv
  have hy4 : parseYearField cur (decDigits y) = y :=
    parseYearField_four_digit cur y hy.1 hy.2
  have hy2 : parseYearField cur (strSlice2 y) = y :=
    parseYearField_slice cur y hy.1 hy.2 hcur hwin.1 hwin.2
  have hlen4 : decDigits y = [y / 1000, y / 100 % 10, y / 10 % 10, y % 10] :=
    decDigits_of_four_digit y hy.1 hy.2
  simp only [dateVariants, List.mem_cons, List.not_mem_nil, or_false] at hv
  rcases hv with rfl | rfl | rfl | rfl | rfl | rfl | rfl | rfl
  · simp only [parseDStr]
    rw [hy4, numVal_decDigits, numVal_decDigits]
  · simp only [parseDStr]
    rw [hy4, numVal_pad2, numVal_pad2]
  · simp only [parseDStr]
    rw [hy2, numVal_decDigits, numVal_decDigits]
  · simp only [parseDStr]
    rw [if_pos (by rw [hlen4]; norm_num), numVal_decDigits, numVal_pad2, numVal_pad2]
  · simp only [parseDStr]
    rw [monthFromName_long m hm.1 hm.2, Option.map_some', hy4, numVal_decDigits]
  · simp only [parseDStr]
    rw [monthFromName_abbr m hm.1 hm.2, Option.map_some', hy4, numVal_decDigits]
  · simp only [parseDStr, isOrdWord_ordSuffix, if_true]
    rw [monthFromName_long m hm.1 hm.2, Option.map_some', hy4, numVal_decDigits]
  · simp only [parseDStr, isOrdWord_ordSuffix, if_true]
    rw [monthFromName_abbr m hm.1 hm.2, Option.map_some', hy4, numVal_decDigits]

/-- Witness for C2 (amended) at March 16, 2023 with parse-time year 2026:
all eight variants re-parse to the date. -/
theorem dateVariants_closed_in_window_witness :
    (1 ≤ 3 ∧ 3 ≤ 12) ∧ (1 ≤ 16 ∧ 16 ≤ 31) ∧ (1000 ≤ 2023 ∧ 2023 ≤ 9999) ∧
    (1000 : Nat) ≤ 2026 ∧ (2026 ≤ 2023 + 50 ∧ 2023 < 2026 + 50) ∧
    ∀ v ∈ dateVariants ⟨2023, 3, 16⟩, parseDStr 2026 v = some ⟨2023, 3, 16⟩ :=
  ⟨by decide, by decide, by decide, by decide, by decide,
    dateVariants_closed_in_window 2026 ⟨2023, 3, 16⟩ (by decide) (by decide)
      (by decide) (by decide) (by decide)⟩
